import Mathlib

/-!
Verification of the object-store core of the gitsync repository.

The development shallowly embeds `src/object.rs` and the parts of
`src/lib.rs` the object store uses.  Byte sequences are `List Nat`
(each entry a byte value), machine integers are `Nat` with explicit
`% 2 ^ w` where overflow matters, and fallible Rust code returns an
explicit result type.  External crates are embedded as follows: the
`sha1` crate is modelled by a full SHA-1 implementation below, and the
`flate2` zlib encoder/decoder pair is abstracted as a function
parameter, since compression is external to this repository.
-/

/-- Bytes of an ASCII string literal, one `Nat` per character.  Used only
for ASCII strings, where UTF-8 bytes and code points coincide. -/
def strBytes (s : String) : List Nat := s.data.map Char.toNat

namespace Sha1

/-- Rotate a 32-bit word left by `k` bits. -/
def rotl (k w : Nat) : Nat := ((w <<< k) % 4294967296) ||| (w >>> (32 - k))

/-- Big-endian bytes of a 32-bit word. -/
def be32 (n : Nat) : List Nat :=
  [(n >>> 24) % 256, (n >>> 16) % 256, (n >>> 8) % 256, n % 256]

/-- Big-endian bytes of a 64-bit word. -/
def be64 (n : Nat) : List Nat :=
  [(n >>> 56) % 256, (n >>> 48) % 256, (n >>> 40) % 256, (n >>> 32) % 256,
   (n >>> 24) % 256, (n >>> 16) % 256, (n >>> 8) % 256, n % 256]

/-- SHA-1 padding: append `0x80`, zero bytes to 56 mod 64, then the
bit length as a big-endian 64-bit integer. -/
def pad (msg : List Nat) : List Nat :=
  msg ++ 128 :: List.replicate ((119 - msg.length % 64) % 64) 0 ++ be64 (8 * msg.length)

/-- Split a byte list into 64-byte blocks; each step consumes at least
one byte, so fuel equal to the list length always suffices and the
out-of-fuel branch is unreachable from `chunk64`. -/
def chunk64Go : Nat → List Nat → List (List Nat)
  | _, [] => []
  | 0, _ :: _ => []
  | fuel + 1, b :: r => (b :: r).take 64 :: chunk64Go fuel ((b :: r).drop 64)

/-- Split a byte list into 64-byte blocks. -/
def chunk64 (l : List Nat) : List (List Nat) := chunk64Go l.length l

/-- Big-endian 32-bit words of a block. -/
def toWords : List Nat → List Nat
  | b0 :: b1 :: b2 :: b3 :: r =>
      ((((b0 % 256) <<< 24) ||| ((b1 % 256) <<< 16)) ||| (((b2 % 256) <<< 8) ||| (b3 % 256)))
        :: toWords r
  | _ => []

/-- Extend the 16 message words to the 80-word schedule. -/
def extendWords (ws : List Nat) : Nat → List Nat
  | 0 => ws
  | k + 1 =>
      extendWords
        (ws ++ [rotl 1 ((((ws.getD (ws.length - 3) 0) ^^^ (ws.getD (ws.length - 8) 0))
          ^^^ ((ws.getD (ws.length - 14) 0) ^^^ (ws.getD (ws.length - 16) 0))))]) k

/-- One SHA-1 round. -/
def step (i w : Nat) (st : Nat × Nat × Nat × Nat × Nat) : Nat × Nat × Nat × Nat × Nat :=
  let (a, b, c, d, e) := st
  let f :=
    if i < 20 then (b &&& c) ||| ((b ^^^ 4294967295) &&& d)
    else if i < 40 then (b ^^^ c) ^^^ d
    else if i < 60 then ((b &&& c) ||| (b &&& d)) ||| (c &&& d)
    else (b ^^^ c) ^^^ d
  let k :=
    if i < 20 then 1518500249
    else if i < 40 then 1859775393
    else if i < 60 then 2400959708
    else 3395469782
  let temp := (rotl 5 a + f + e + k + w) % 4294967296
  (temp, a, rotl 30 b, c, d)

/-- Compress one 64-byte block into the running state. -/
def processBlock (h : Nat × Nat × Nat × Nat × Nat) (block : List Nat) :
    Nat × Nat × Nat × Nat × Nat :=
  let ws := extendWords (toWords block) 64
  let (a, b, c, d, e) := ws.enum.foldl (fun st iw => step iw.1 iw.2 st) h
  let (h0, h1, h2, h3, h4) := h
  ((h0 + a) % 4294967296, (h1 + b) % 4294967296, (h2 + c) % 4294967296,
   (h3 + d) % 4294967296, (h4 + e) % 4294967296)

/-- The 20 digest bytes of a message. -/
def hash (msg : List Nat) : List Nat :=
  let st := (chunk64 (pad msg)).foldl processBlock
    (1732584193, 4023233417, 2562383102, 271733878, 3285377520)
  let (h0, h1, h2, h3, h4) := st
  be32 h0 ++ be32 h1 ++ be32 h2 ++ be32 h3 ++ be32 h4

end Sha1

/-- Lowercase hex digit character for a nibble, as produced by the
format specifier used at `object.rs:64`. -/
def hexChar (n : Nat) : Char := Char.ofNat (if n < 10 then 48 + n else 87 + n)

/-- Lowercase zero-padded two-digit hex rendering of each byte,
concatenated: the loop at `object.rs:62-66`. -/
def hexString (bs : List Nat) : String :=
  String.mk (bs.foldr (fun b acc => hexChar (b / 16) :: hexChar (b % 16) :: acc) [])

/-- Lowercase hex SHA-1 digest of a byte sequence: the `sha1` crate's
digest rendered by the loop at `object.rs:62-66`. -/
def sha1Hex (msg : List Nat) : String := hexString (Sha1.hash msg)

/-- ASCII-lowercase every byte, as `u8::to_ascii_lowercase` does. -/
def asciiLower (l : List Nat) : List Nat :=
  l.map fun b => if 65 ≤ b ∧ b ≤ 90 then b + 32 else b

/-- Decimal digits with explicit fuel; each step divides by ten, so
fuel equal to the number itself always suffices. -/
def natToDecimalGo : Nat → Nat → List Nat
  | 0, n => [48 + n % 10]
  | fuel + 1, n =>
      if n < 10 then [48 + n] else natToDecimalGo fuel (n / 10) ++ [48 + n % 10]

/-- Decimal digit bytes of a natural number, most significant first: the
bytes `Display for usize` produces for `write!` at `object.rs:50`. -/
def natToDecimal (n : Nat) : List Nat := natToDecimalGo n n

/-- Accumulating decimal parse; fails on any non-digit byte. -/
def parseDigitsGo : List Nat → Nat → Option Nat
  | [], acc => some acc
  | b :: r, acc =>
      if 48 ≤ b ∧ b ≤ 57 then parseDigitsGo r (acc * 10 + (b - 48)) else none

/-- The parse `usize::from_str` performs (64-bit target): an optional
leading `+`, at least one digit, no other bytes, and the value must fit
in 64 bits. -/
def parseUsize (bs : List Nat) : Option Nat :=
  let core :=
    match bs with
    | [] => none
    | b :: r => if b = 43 then (if r.isEmpty then none else parseDigitsGo r 0)
                else parseDigitsGo (b :: r) 0
  match core with
  | some v => if v < 18446744073709551616 then some v else none
  | none => none

/-- Continuation byte of a multi-byte UTF-8 sequence. -/
def utf8Cont (c : Nat) : Bool := 128 ≤ c && c ≤ 191

/-- Number of continuation bytes demanded by a lead byte; `0` also for
an invalid lead byte (continuation bytes `128-193` and `245` upward are
never valid leads). -/
def utf8Len (b : Nat) : Nat :=
  if 194 ≤ b ∧ b ≤ 223 then 1
  else if 224 ≤ b ∧ b ≤ 239 then 2
  else if 240 ≤ b ∧ b ≤ 244 then 3
  else 0

/-- Lower bound on the first continuation byte: `224` and `240` require
a raised bound to exclude overlong encodings. -/
def utf8Lo (b : Nat) : Nat := if b = 224 then 160 else if b = 240 then 144 else 128

/-- Upper bound on the first continuation byte: `237` excludes the
surrogate range, `244` excludes code points above `0x10FFFF`. -/
def utf8Hi (b : Nat) : Nat := if b = 237 then 159 else if b = 244 then 143 else 191

/-- One step per lead byte of the UTF-8 validity scan; each step
consumes at least one byte, so fuel equal to the list length always
suffices and the out-of-fuel branch is unreachable from
`isValidUtf8`. -/
def utf8Go : Nat → List Nat → Bool
  | _, [] => true
  | 0, _ :: _ => false
  | fuel + 1, b :: rest =>
    if b < 128 then utf8Go fuel rest
    else
      let k := utf8Len b
      if k = 0 then false
      else if rest.length < k then false
      else if ¬ (utf8Lo b ≤ rest.headD 0 ∧ rest.headD 0 ≤ utf8Hi b) then false
      else if ¬ ((rest.take k).drop 1).all utf8Cont then false
      else utf8Go fuel (rest.drop k)

/-- The validity check `String::from_utf8` performs: well-formed UTF-8
with overlong encodings, surrogates and code points above `0x10FFFF`
rejected.  A lead byte below `128` stands alone; otherwise `utf8Len`
continuation bytes must follow, the first within `utf8Lo`-`utf8Hi` and
the rest within `128`-`191`. -/
def isValidUtf8 (l : List Nat) : Bool := utf8Go l.length l

/-- The semantics of `BufRead::read_until`: consume bytes up to and
including the first occurrence of the delimiter, or to end of stream
if the delimiter never occurs; return the bytes read and the rest. -/
def readUntil (d : Nat) : List Nat → List Nat × List Nat
  | [] => ([], [])
  | b :: r =>
      if b = d then ([b], r)
      else
        let p := readUntil d r
        (b :: p.1, p.2)

/-!
The writer layer.  A byte sink (`impl Write`) is a state machine: a log
of the bytes accepted so far and a policy giving, for the current log
and a buffer, either an error or the count of bytes accepted by this
`write` call.  In-memory sinks (`Vec<u8>`, the SHA-1 hasher,
`io::empty()`, a zlib encoder writing into a `Vec<u8>`) accept every
byte and never fail: `fullPolicy`.  Errors are the `io::Error` message
strings.  `ErrorKind::Interrupted` retries are not modelled; none of
the sinks in this crate produce them.
-/

/-- A byte sink: an `impl Write` value. -/
structure WSink where
  log : List Nat
  policy : List Nat → List Nat → Except String Nat

/-- The policy of the in-memory sinks used by the crate: accept the
whole buffer, never fail. -/
def fullPolicy : List Nat → List Nat → Except String Nat := fun _ buf => .ok buf.length

/-- One `Write::write` call on a sink. -/
def WSink.write (s : WSink) (buf : List Nat) : Except String (Nat × WSink) :=
  match s.policy s.log buf with
  | .error e => .error e
  | .ok n => .ok (n, { s with log := s.log ++ buf.take n })

/-- The loop inside the default `Write::write_all`: repeat `write`
until the buffer is exhausted, failing if a call accepts zero bytes.
Each successful call accepts at least one byte, so `buf.length` steps
of fuel always suffice. -/
def writeAllGo : Nat → WSink → List Nat → Except String WSink
  | _, s, [] => .ok s
  | 0, _, _ :: _ => .error "write_all fuel exhausted"
  | fuel + 1, s, b :: r =>
    match s.write (b :: r) with
    | .error e => .error e
    | .ok (n, s') =>
        if n = 0 then .error "failed to write whole buffer"
        else writeAllGo fuel s' ((b :: r).drop n)

/-- `Write::write_all` on a single sink. -/
def WSink.writeAll (s : WSink) (buf : List Nat) : Except String WSink :=
  writeAllGo buf.length s buf

/-- `SplitWrite::write` (`object.rs:167-176`): write to both sinks in
sequence, fail if the accepted counts differ. -/
def splitWrite (a b : WSink) (buf : List Nat) : Except String (Nat × WSink × WSink) :=
  match a.write buf with
  | .error e => .error e
  | .ok (na, a') =>
    match b.write buf with
    | .error e => .error e
    | .ok (nb, b') =>
      if na ≠ nb then .error "write did not match in size"
      else .ok (na, a', b')

/-- `SplitWrite::write_all` (`object.rs:184-188`): `write_all` on each
sink in sequence. -/
def splitWriteAll (a b : WSink) (buf : List Nat) : Except String (WSink × WSink) :=
  match a.writeAll buf with
  | .error e => .error e
  | .ok a' =>
    match b.writeAll buf with
    | .error e => .error e
    | .ok b' => .ok (a', b')

/-!
The object model, from `object.rs`.
-/

/-- `ObjectType` (`object.rs:13-19`). -/
inductive ObjectType where
  | Blob
  | Commit
  | Tree
  | Tag
deriving DecidableEq

/-- `Object` (`object.rs:21-27`); the `Blob` variant carries its
content bytes. -/
inductive Object where
  | Blob (data : List Nat)
  | Commit
  | Tree
  | Tag
deriving DecidableEq

/-- Outcome of running a piece of Rust code: a returned value, a
returned error, or a panic (process abort). -/
inductive ROut (ε α : Type) where
  | ok (val : α)
  | err (e : ε)
  | panic (msg : String)
deriving DecidableEq

/-- Whether an outcome is a returned value. -/
def ROut.isOk {ε α : Type} : ROut ε α → Bool
  | .ok _ => true
  | _ => false

/-- Whether an outcome is a returned error. -/
def ROut.isErr {ε α : Type} : ROut ε α → Bool
  | .err _ => true
  | _ => false

/-- The distinct failure cases of `Object::deserialize_zlib`, one per
`bail!`/`context` site; payloads are the values interpolated into the
corresponding message. -/
inductive DeErr where
  /-- The stream ended before the space after the object type
  (`object.rs:118`). -/
  | eofAfterType
  /-- The type bytes are not valid UTF-8 (`object.rs:120`). -/
  | typeUtf8
  /-- The type token matches none of the four known names
  (`object.rs:123`); carries the token bytes. -/
  | invalidType (tok : List Nat)
  /-- The stream ended before the NUL after the object size
  (`object.rs:131`). -/
  | eofAfterSize
  /-- The size bytes are not valid UTF-8 (`object.rs:133`). -/
  | sizeUtf8
  /-- The size bytes do not parse as a `usize` (`object.rs:134`). -/
  | sizeParse
  /-- The declared size differs from the number of content bytes
  actually read (`object.rs:141`); carries both counts. -/
  | sizeMismatch (declared actual : Nat)
deriving DecidableEq

namespace Object

/-- `Object::type_str` (`object.rs:95-102`). -/
def type_str : Object → String
  | .Blob _ => "blob"
  | .Commit => "commit"
  | .Tree => "tree"
  | .Tag => "tag"

/-- The clap `ValueEnum` name of each `ObjectType` variant, as
generated by the derive in `object.rs:13`. -/
def typeName : ObjectType → String
  | .Blob => "blob"
  | .Commit => "commit"
  | .Tree => "tree"
  | .Tag => "tag"

/-- Byte form of a variant name. -/
def nameBytes (t : ObjectType) : List Nat := strBytes (typeName t)

/-- The four known type names, lowercase. -/
def knownTypeNames : List (List Nat) :=
  [nameBytes .Blob, nameBytes .Commit, nameBytes .Tree, nameBytes .Tag]

/-- `ObjectType::from_str(tok, true)` as generated by clap's
`ValueEnum` derive: the first variant whose name matches the token
ASCII-case-insensitively, else an error carrying the token. -/
def fromStrM (tok : List Nat) : Except (List Nat) ObjectType :=
  if asciiLower tok = asciiLower (nameBytes .Blob) then .ok .Blob
  else if asciiLower tok = asciiLower (nameBytes .Commit) then .ok .Commit
  else if asciiLower tok = asciiLower (nameBytes .Tree) then .ok .Tree
  else if asciiLower tok = asciiLower (nameBytes .Tag) then .ok .Tag
  else .error tok

/-- `Object::serialize` (`object.rs:69-77`): a `Blob` writes its bytes;
the other variants are `todo!()`, which panics. -/
def serialize (o : Object) (w : WSink) : ROut String WSink :=
  match o with
  | .Blob data =>
    match w.writeAll data with
    | .error e => .err e
    | .ok w' => .ok w'
  | _ => .panic "not yet implemented"

/-- `Object::serialize_with_header` (`object.rs:42-67`): write
`"<type> "`, then `"<len>\x00"`, then the content, all through a
`SplitWrite` fanned out to the caller's sink and a fresh SHA-1 hasher;
return the hex digest and the updated caller sink.  Each `write!`
becomes one `write_all` of the formatted bytes. -/
def serialize_with_header (o : Object) (w : WSink) : ROut String (String × WSink) :=
  let hasher : WSink := ⟨[], fullPolicy⟩
  match splitWriteAll w hasher (strBytes o.type_str ++ [32]) with
  | .error e => .err e
  | .ok (w, hasher) =>
    match o with
    | .Blob data =>
      match splitWriteAll w hasher (natToDecimal data.length ++ [0]) with
      | .error e => .err e
      | .ok (w, hasher) =>
        match splitWriteAll w hasher data with
        | .error e => .err e
        | .ok (w, hasher) => .ok (sha1Hex hasher.log, w)
    | other =>
      match other.serialize ⟨[], fullPolicy⟩ with
      | .err e => .err e
      | .panic m => .panic m
      | .ok vec =>
        match splitWriteAll w hasher (natToDecimal vec.log.length ++ [0]) with
        | .error e => .err e
        | .ok (w, hasher) =>
          match splitWriteAll w hasher vec.log with
          | .error e => .err e
          | .ok (w, hasher) => .ok (sha1Hex hasher.log, w)

/-- `Object::serialize_zlib_comp` (`object.rs:34-40`): serialize with
header into a zlib encoder backed by an in-memory `Vec<u8>`, then
`unwrap` the result.  The encoder is the external `flate2` crate; it
is abstracted as `zenc`, the compression function at the chosen level,
applied to the bytes the encoder received. -/
def serialize_zlib_comp (zenc : List Nat → List Nat) (o : Object) :
    ROut String (String × List Nat) :=
  match o.serialize_with_header ⟨[], fullPolicy⟩ with
  | .ok (hash, enc) => .ok (hash, zenc enc.log)
  | .err e => .panic ("called Result::unwrap on an Err value: " ++ e)
  | .panic m => .panic m

/-- `Object::serialize_zlib` (`object.rs:30-32`): `serialize_zlib_comp`
at the default compression level. -/
def serialize_zlib (zenc : List Nat → List Nat) (o : Object) :
    ROut String (String × List Nat) :=
  serialize_zlib_comp zenc o

/-- `Object::sha1` (`object.rs:91-93`): serialize with header into
`io::empty()` (which accepts and discards every byte) and `unwrap`; the
function takes no repository and touches no file. -/
def sha1 (o : Object) : ROut String String :=
  match o.serialize_with_header ⟨[], fullPolicy⟩ with
  | .ok (hash, _) => .ok hash
  | .err e => .panic ("called Result::unwrap on an Err value: " ++ e)
  | .panic m => .panic m

/-- `Object::deserialize` (`object.rs:154-161`): a `Blob` wraps the
bytes directly; the other variants are `todo!()`, which panics. -/
def deserialize (typ : ObjectType) (data : List Nat) : ROut DeErr Object :=
  match typ with
  | .Blob => .ok (.Blob data)
  | _ => .panic "not yet implemented"

/-- Type stage of `Object::deserialize_zlib` (`object.rs:113-124`):
`read_until` the first space, pop and check it, validate UTF-8, match
the token against the known type names. -/
def parseTypeStage (s : List Nat) : Except DeErr (ObjectType × List Nat) :=
  let p := readUntil 32 s
  if p.1.getLast? = some 32 then
    let tok := p.1.dropLast
    if isValidUtf8 tok then
      match fromStrM tok with
      | .ok t => .ok (t, p.2)
      | .error tk => .error (.invalidType tk)
    else .error .typeUtf8
  else .error .eofAfterType

/-- Size stage of `Object::deserialize_zlib` (`object.rs:126-134`):
`read_until` the first NUL, pop and check it, validate UTF-8, parse as
`usize`. -/
def parseSizeStage (s : List Nat) : Except DeErr (Nat × List Nat) :=
  let p := readUntil 0 s
  if p.1.getLast? = some 0 then
    let szBytes := p.1.dropLast
    if isValidUtf8 szBytes then
      match parseUsize szBytes with
      | some size => .ok (size, p.2)
      | none => .error .sizeParse
    else .error .sizeUtf8
  else .error .eofAfterSize

/-- Body of `Object::deserialize_zlib` (`object.rs:109-145`) applied to
the already-decompressed byte stream: parse the type, parse the size,
`read_to_end` the content, compare actual to declared count, dispatch. -/
def parseStream (s : List Nat) : ROut DeErr Object :=
  match parseTypeStage s with
  | .error e => .err e
  | .ok (typ, r1) =>
    match parseSizeStage r1 with
    | .error e => .err e
    | .ok (size, data) =>
      if data.length ≠ size then .err (.sizeMismatch size data.length)
      else deserialize typ data

/-- `Object::deserialize_zlib` (`object.rs:109-145`): the stream is
first run through the external `flate2` decoder, abstracted as `zdec`;
the rest is `parseStream`. -/
def deserialize_zlib (zdec : List Nat → List Nat) (s : List Nat) : ROut DeErr Object :=
  parseStream (zdec s)

end Object

/-!
The store.  The filesystem visible to `Repository::file` is a finite
map from relative paths (under the metadata directory) to file
contents, as an association list.  Directories are not tracked:
`create_dir_all` never fails and affects nothing observable in this
model.
-/

/-- Filesystem state: association list from path to contents. -/
abbrev FS : Type := List (String × List Nat)

/-- Contents stored at a path. -/
def fsGet (fs : FS) (p : String) : Option (List Nat) := List.lookup p fs

/-- Store contents at a path, replacing any previous entry. -/
def fsSet (fs : FS) (p : String) (v : List Nat) : FS :=
  match fs with
  | [] => [(p, v)]
  | (q, w) :: r => if q = p then (p, v) :: r else (q, w) :: fsSet r p v

namespace Repository

/-- Modelled from the spec: `Repository::sha1_to_object` is called from
`object.rs` but its definition is not under `src/`.  Spec section 3
describes the storage path as a function from the 40-character hex
digest to a relative path with the sharded convention: a directory of
the first 2 hex characters, the remaining 38 characters as the file
name, under the `objects/` directory the spec in section 6 places in
the metadata directory. -/
def sha1_to_object (sha1 : String) : String :=
  "objects/" ++ String.mk (sha1.data.take 2) ++ "/" ++ String.mk (sha1.data.drop 2)

/-- `Repository::file` (`lib.rs:181-200`) followed by the
`file.write_all(&data)` of `Object::save` (`object.rs:87`), for the
open options `save` passes: `create(true).write(true)` and
`create_parent = true`.  `create_dir_all` on the parent is a no-op
here; opening creates an empty file when the path is absent; the
options carry no `truncate` and no `append` flag, so writing starts at
position 0 and any bytes of an existing file beyond the written length
survive. -/
def fileWriteCreate (fs : FS) (p : String) (data : List Nat) : FS :=
  let old := (fsGet fs p).getD []
  fsSet fs p (data ++ old.drop data.length)

end Repository

namespace Object

/-- `Object::save` (`object.rs:79-89`): serialize, derive the path from
the digest, open with `create(true).write(true)` creating parent
directories, write all compressed bytes, return the digest. -/
def save (zenc : List Nat → List Nat) (o : Object) (fs : FS) :
    ROut String (String × FS) :=
  match o.serialize_zlib zenc with
  | .ok (sha1, data) =>
      let path := Repository.sha1_to_object sha1
      .ok (sha1, Repository.fileWriteCreate fs path data)
  | .err e => .err e
  | .panic m => .panic m

end Object

/-- The canonical encoding of a blob as the spec states it in section
3: the type name, a space, the decimal byte length, a NUL, then the
content bytes. -/
def blobFrame (c : List Nat) : List Nat :=
  strBytes "blob " ++ natToDecimal c.length ++ 0 :: c

/-!
Helper lemmas.
-/

theorem writeAll_full (l buf : List Nat) :
    WSink.writeAll ⟨l, fullPolicy⟩ buf = .ok ⟨l ++ buf, fullPolicy⟩ := by
  cases buf with
  | nil => simp [WSink.writeAll, writeAllGo]
  | cons b r =>
    simp only [WSink.writeAll, List.length_cons]
    rw [writeAllGo]
    simp [WSink.write, fullPolicy, List.take_length, List.drop_length, writeAllGo]

theorem splitWriteAll_full (l1 l2 buf : List Nat) :
    splitWriteAll ⟨l1, fullPolicy⟩ ⟨l2, fullPolicy⟩ buf
      = .ok (⟨l1 ++ buf, fullPolicy⟩, ⟨l2 ++ buf, fullPolicy⟩) := by
  simp [splitWriteAll, writeAll_full]

theorem swh_blob (data l : List Nat) :
    Object.serialize_with_header (Object.Blob data) ⟨l, fullPolicy⟩
      = .ok (sha1Hex (blobFrame data), ⟨l ++ blobFrame data, fullPolicy⟩) := by
  simp only [Object.serialize_with_header, Object.type_str, splitWriteAll_full]
  simp [blobFrame, show strBytes "blob " = strBytes "blob" ++ [32] from by decide,
    List.append_assoc]

theorem readUntil_found (d : Nat) (pre rest : List Nat) (h : d ∉ pre) :
    readUntil d (pre ++ d :: rest) = (pre ++ [d], rest) := by
  induction pre with
  | nil => simp [readUntil]
  | cons b p ih =>
    have hbd : b ≠ d := fun hc => h (hc ▸ List.mem_cons_self b p)
    have hdp : d ∉ p := fun hc => h (List.mem_cons_of_mem b hc)
    simp [readUntil, hbd, ih hdp]

theorem natToDecimalGo_mem (fuel : Nat) :
    ∀ n, ∀ x ∈ natToDecimalGo fuel n, 48 ≤ x ∧ x ≤ 57 := by
  induction fuel with
  | zero =>
    intro n x hx
    have : x = 48 + n % 10 := by simpa [natToDecimalGo] using hx
    have : n % 10 < 10 := Nat.mod_lt _ (by omega)
    omega
  | succ f ih =>
    intro n x hx
    by_cases h : n < 10
    · rw [natToDecimalGo, if_pos h] at hx
      simp at hx
      omega
    · rw [natToDecimalGo, if_neg h] at hx
      rcases List.mem_append.mp hx with h1 | h2
      · exact ih (n / 10) x h1
      · have : x = 48 + n % 10 := by simpa using h2
        have : n % 10 < 10 := Nat.mod_lt _ (by omega)
        omega

theorem natToDecimal_mem (n : Nat) : ∀ x ∈ natToDecimal n, 48 ≤ x ∧ x ≤ 57 :=
  natToDecimalGo_mem n n

theorem natToDecimalGo_ne_nil (fuel n : Nat) : natToDecimalGo fuel n ≠ [] := by
  cases fuel with
  | zero => simp [natToDecimalGo]
  | succ f =>
    by_cases h : n < 10
    · rw [natToDecimalGo, if_pos h]; simp
    · rw [natToDecimalGo, if_neg h]; simp

theorem natToDecimal_ne_nil (n : Nat) : natToDecimal n ≠ [] :=
  natToDecimalGo_ne_nil n n

theorem utf8Go_ascii (fuel : Nat) :
    ∀ l : List Nat, l.length ≤ fuel → (∀ x ∈ l, x < 128) → utf8Go fuel l = true := by
  induction fuel with
  | zero =>
    intro l hl _
    cases l with
    | nil => rfl
    | cons b r => simp at hl
  | succ f ih =>
    intro l hl h
    cases l with
    | nil => rfl
    | cons b r =>
      have hb : b < 128 := h b (List.mem_cons_self b r)
      rw [utf8Go, if_pos hb]
      refine ih r ?_ fun x hx => h x (List.mem_cons_of_mem b hx)
      simp at hl
      omega

theorem ascii_isValidUtf8 (l : List Nat) (h : ∀ x ∈ l, x < 128) :
    isValidUtf8 l = true :=
  utf8Go_ascii l.length l le_rfl h

theorem parseDigitsGo_append (xs ys : List Nat) :
    ∀ acc, parseDigitsGo (xs ++ ys) acc
      = (parseDigitsGo xs acc).bind (fun a => parseDigitsGo ys a) := by
  induction xs with
  | nil => intro acc; simp [parseDigitsGo]
  | cons b r ih =>
    intro acc
    by_cases hb : 48 ≤ b ∧ b ≤ 57
    · simp [parseDigitsGo, hb, ih]
    · simp [parseDigitsGo, hb]

theorem parseDigitsGo_natToDecimalGo (fuel : Nat) :
    ∀ n acc, n ≤ fuel → parseDigitsGo (natToDecimalGo fuel n) acc
      = some (acc * 10 ^ (natToDecimalGo fuel n).length + n) := by
  induction fuel with
  | zero =>
    intro n acc hle
    have hn : n = 0 := by omega
    subst hn
    simp [natToDecimalGo, parseDigitsGo]
  | succ f ih =>
    intro n acc hle
    by_cases h : n < 10
    · rw [natToDecimalGo, if_pos h]
      rw [parseDigitsGo, if_pos (by omega)]
      rw [parseDigitsGo]
      simp
      try omega
    · rw [natToDecimalGo, if_neg h]
      rw [parseDigitsGo_append]
      have hdiv : n / 10 ≤ f := by
        have := Nat.div_lt_self (show 0 < n by omega) (show 1 < 10 by omega)
        omega
      rw [ih (n / 10) acc hdiv]
      simp only [Option.some_bind]
      rw [parseDigitsGo, if_pos (by have := Nat.mod_lt n (show 0 < 10 by omega); omega)]
      rw [parseDigitsGo]
      congr 1
      have hlen : (natToDecimalGo f (n / 10) ++ [48 + n % 10]).length
          = (natToDecimalGo f (n / 10)).length + 1 := by simp
      rw [hlen]
      have hmod : 10 * (n / 10) + n % 10 = n := Nat.div_add_mod n 10
      have hsub : 48 + n % 10 - 48 = n % 10 := by omega
      rw [hsub, pow_succ]
      ring_nf
      omega

theorem parseDigitsGo_natToDecimal (n : Nat) :
    ∀ acc, parseDigitsGo (natToDecimal n) acc
      = some (acc * 10 ^ (natToDecimal n).length + n) :=
  fun acc => parseDigitsGo_natToDecimalGo n n acc le_rfl

theorem parseUsize_natToDecimal (n : Nat) (hn : n < 18446744073709551616) :
    parseUsize (natToDecimal n) = some n := by
  obtain ⟨b, r, hshape⟩ := List.exists_cons_of_ne_nil (natToDecimal_ne_nil n)
  have hb : 48 ≤ b ∧ b ≤ 57 := natToDecimal_mem n b (hshape ▸ List.mem_cons_self b r)
  have hgo : parseDigitsGo (b :: r) 0 = some n := by
    rw [← hshape, parseDigitsGo_natToDecimal n 0]
    simp
  simp only [parseUsize, hshape]
  rw [if_neg (by omega)]
  rw [hgo]
  simp [hn]

theorem parseTypeStage_eq (tok rest : List Nat) (h32 : 32 ∉ tok)
    (hv : isValidUtf8 tok = true) :
    Object.parseTypeStage (tok ++ 32 :: rest)
      = match Object.fromStrM tok with
        | .ok t => .ok (t, rest)
        | .error tk => .error (.invalidType tk) := by
  simp only [Object.parseTypeStage, readUntil_found 32 tok rest h32]
  simp [List.getLast?_concat, List.dropLast_concat, hv]

theorem parseSizeStage_eq (n : Nat) (rest : List Nat) (hn : n < 18446744073709551616) :
    Object.parseSizeStage (natToDecimal n ++ 0 :: rest) = .ok (n, rest) := by
  have h0 : 0 ∉ natToDecimal n := by
    intro hc
    have := natToDecimal_mem n 0 hc
    omega
  have hv : isValidUtf8 (natToDecimal n) = true :=
    ascii_isValidUtf8 _ fun x hx => by have := natToDecimal_mem n x hx; omega
  simp only [Object.parseSizeStage, readUntil_found 0 (natToDecimal n) rest h0]
  simp [List.getLast?_concat, List.dropLast_concat, hv, parseUsize_natToDecimal n hn]

theorem fromStrM_ok (tok : List Nat) (t : ObjectType)
    (h : asciiLower tok = Object.nameBytes t) : Object.fromStrM tok = .ok t := by
  cases t with
  | Blob =>
    simp only [Object.fromStrM, h]
    rfl
  | Commit =>
    simp only [Object.fromStrM, h]
    rfl
  | Tree =>
    simp only [Object.fromStrM, h]
    rfl
  | Tag =>
    simp only [Object.fromStrM, h]
    rfl

theorem fromStrM_err (tok : List Nat) (h : asciiLower tok ∉ Object.knownTypeNames) :
    Object.fromStrM tok = .error tok := by
  have h1 : asciiLower tok ≠ asciiLower (Object.nameBytes .Blob) := by
    rw [show asciiLower (Object.nameBytes .Blob) = Object.nameBytes .Blob from by decide]
    intro hc
    exact h (by rw [hc]; simp [Object.knownTypeNames])
  have h2 : asciiLower tok ≠ asciiLower (Object.nameBytes .Commit) := by
    rw [show asciiLower (Object.nameBytes .Commit) = Object.nameBytes .Commit from by decide]
    intro hc
    exact h (by rw [hc]; simp [Object.knownTypeNames])
  have h3 : asciiLower tok ≠ asciiLower (Object.nameBytes .Tree) := by
    rw [show asciiLower (Object.nameBytes .Tree) = Object.nameBytes .Tree from by decide]
    intro hc
    exact h (by rw [hc]; simp [Object.knownTypeNames])
  have h4 : asciiLower tok ≠ asciiLower (Object.nameBytes .Tag) := by
    rw [show asciiLower (Object.nameBytes .Tag) = Object.nameBytes .Tag from by decide]
    intro hc
    exact h (by rw [hc]; simp [Object.knownTypeNames])
  simp [Object.fromStrM, h1, h2, h3, h4]

theorem parseStream_wf (t : ObjectType) (n : Nat) (data : List Nat)
    (hn : n < 18446744073709551616) :
    Object.parseStream (Object.nameBytes t ++ 32 :: (natToDecimal n ++ 0 :: data))
      = if data.length = n then Object.deserialize t data
        else .err (.sizeMismatch n data.length) := by
  have h32 : 32 ∉ Object.nameBytes t := by cases t <;> decide
  have hv : isValidUtf8 (Object.nameBytes t) = true := by cases t <;> decide
  have hlow : asciiLower (Object.nameBytes t) = Object.nameBytes t := by cases t <;> decide
  simp only [Object.parseStream, parseTypeStage_eq _ _ h32 hv,
    fromStrM_ok (Object.nameBytes t) t hlow]
  simp only [parseSizeStage_eq n data hn]
  by_cases hd : data.length = n <;> simp [hd]

theorem fsGet_fsSet (fs : FS) (p : String) (v : List Nat) :
    fsGet (fsSet fs p v) p = some v := by
  induction fs with
  | nil => simp [fsSet, fsGet, List.lookup]
  | cons e r ih =>
    obtain ⟨q, w⟩ := e
    by_cases hq : q = p
    · simp [fsSet, hq, fsGet, List.lookup]
    · simp only [fsSet, if_neg hq]
      have hpq : (p == q) = false := beq_eq_false_iff_ne.mpr fun hc => hq hc.symm
      simpa [fsGet, List.lookup, hpq] using ih

theorem writeAllGo_log (fuel : Nat) :
    ∀ (s : WSink) (buf : List Nat) (s' : WSink),
      writeAllGo fuel s buf = .ok s' → s'.log = s.log ++ buf := by
  induction fuel with
  | zero =>
    intro s buf s' h
    cases buf with
    | nil =>
      simp only [writeAllGo, Except.ok.injEq] at h
      rw [← h]
      simp
    | cons x r => simp [writeAllGo] at h
  | succ f ih =>
    intro s buf s' h
    cases buf with
    | nil =>
      simp only [writeAllGo, Except.ok.injEq] at h
      rw [← h]
      simp
    | cons x r =>
      rw [writeAllGo] at h
      cases hw : s.write (x :: r) with
      | error e => rw [hw] at h; simp at h
      | ok p =>
        obtain ⟨n, s₂⟩ := p
        rw [hw] at h
        have h2 : (if n = 0 then (Except.error "failed to write whole buffer" : Except String WSink)
            else writeAllGo f s₂ ((x :: r).drop n)) = Except.ok s' := h
        by_cases hn : n = 0
        · rw [if_pos hn] at h2; simp at h2
        · rw [if_neg hn] at h2
          have hrec := ih s₂ ((x :: r).drop n) s' h2
          have hs₂ : s₂.log = s.log ++ (x :: r).take n := by
            unfold WSink.write at hw
            cases hp : s.policy s.log (x :: r) with
            | error e => rw [hp] at hw; simp at hw
            | ok m =>
              rw [hp] at hw
              simp only [Except.ok.injEq, Prod.mk.injEq] at hw
              rw [← hw.2, hw.1]
          rw [hrec, hs₂, List.append_assoc, List.take_append_drop]

theorem writeAll_log (s : WSink) (buf : List Nat) (s' : WSink)
    (h : s.writeAll buf = .ok s') : s'.log = s.log ++ buf :=
  writeAllGo_log buf.length s buf s' h

theorem blobFrame_shape (c : List Nat) :
    blobFrame c = Object.nameBytes ObjectType.Blob ++ 32 :: (natToDecimal c.length ++ 0 :: c) := by
  simp [blobFrame, Object.nameBytes, Object.typeName,
    show strBytes "blob " = strBytes "blob" ++ [32] from by decide, List.append_assoc]

/-!
The claims.
-/

/-- C1: for every byte sequence `content`, including the empty sequence
and sequences containing NUL bytes, deserializing via
`deserialize_zlib` the compressed bytes produced by `serialize_zlib` on
a blob with that content succeeds and yields a blob whose data equals
`content` exactly.  The zlib layer is the external `flate2` crate,
abstracted as any encoder/decoder pair `zenc`/`zdec` with
`zdec (zenc s) = s`; the length bound is the `usize` range of the
content length in Rust. -/
theorem c1_blob_round_trip (zenc zdec : List Nat → List Nat)
    (hz : ∀ s, zdec (zenc s) = s) (c : List Nat)
    (hlen : c.length < 18446744073709551616) :
    Object.serialize_zlib zenc (Object.Blob c)
      = .ok (sha1Hex (blobFrame c), zenc (blobFrame c))
    ∧ Object.deserialize_zlib zdec (zenc (blobFrame c)) = .ok (Object.Blob c) := by
  constructor
  · simp [Object.serialize_zlib, Object.serialize_zlib_comp, swh_blob]
  · simp only [Object.deserialize_zlib, hz, blobFrame_shape]
    rw [parseStream_wf ObjectType.Blob c.length c hlen]
    simp [Object.deserialize]

/-- Witness for C1 at a one-byte content consisting of a NUL byte, with
the identity as the compression pair. -/
theorem c1_blob_round_trip_witness :
    Object.serialize_zlib id (Object.Blob [0])
      = .ok (sha1Hex (blobFrame [0]), id (blobFrame [0]))
    ∧ Object.deserialize_zlib id (id (blobFrame [0])) = .ok (Object.Blob [0]) :=
  c1_blob_round_trip id id (fun _ => rfl) [0] (by decide)

set_option maxRecDepth 100000 in
/-- C2: `sha1()` of the blob whose content is the bytes
`this is a simple test blob` followed by a newline returns exactly the
string `2bb09523ce4baf1940ee8fef49f6cade5afe3d03`; the function writes
through `io::empty()` and takes no repository, so no file is involved,
which the embedding reflects by `Object.sha1` taking no filesystem
argument. -/
theorem c2_fixed_digest :
    Object.sha1 (Object.Blob (strBytes "this is a simple test blob\n"))
      = .ok "2bb09523ce4baf1940ee8fef49f6cade5afe3d03" := by
  decide

/-- C3: for every blob content, the digest `serialize_with_header`
returns (and hence `sha1()` and `serialize_zlib` return) is the
lowercase hex SHA-1 of `"blob "` followed by the decimal length, a NUL
and the content, and exactly these bytes, header included, reach the
caller's sink and the compressor. -/
theorem c3_header_always_hashed (data l : List Nat) :
    Object.serialize_with_header (Object.Blob data) ⟨l, fullPolicy⟩
      = .ok (sha1Hex (blobFrame data), ⟨l ++ blobFrame data, fullPolicy⟩)
    ∧ Object.sha1 (Object.Blob data) = .ok (sha1Hex (blobFrame data))
    ∧ ∀ zenc, Object.serialize_zlib zenc (Object.Blob data)
        = .ok (sha1Hex (blobFrame data), zenc (blobFrame data)) := by
  refine ⟨swh_blob data l, ?_, ?_⟩
  · simp [Object.sha1, swh_blob]
  · intro zenc
    simp [Object.serialize_zlib, Object.serialize_zlib_comp, swh_blob]

/-- C4: in `deserialize_zlib`, once the header parses with declared
length `n`, all remaining bytes of the decompressed stream are read,
and whenever their count differs from `n` the call fails with the
size-mismatch error carrying both the declared and the actual count;
no short object is returned. -/
theorem c4_size_mismatch_guard (zdec : List Nat → List Nat) (comp : List Nat)
    (t : ObjectType) (n : Nat) (data : List Nat)
    (hs : zdec comp = Object.nameBytes t ++ 32 :: (natToDecimal n ++ 0 :: data))
    (hn : n < 18446744073709551616) (hne : data.length ≠ n) :
    Object.deserialize_zlib zdec comp = .err (.sizeMismatch n data.length) := by
  simp only [Object.deserialize_zlib, hs]
  rw [parseStream_wf t n data hn, if_neg hne]

/-- Witness for C4: a blob declaring three bytes whose stream holds
only one. -/
theorem c4_size_mismatch_guard_witness :
    Object.deserialize_zlib id
        (Object.nameBytes ObjectType.Blob ++ 32 :: (natToDecimal 3 ++ 0 :: [1]))
      = .err (.sizeMismatch 3 1) :=
  c4_size_mismatch_guard id _ ObjectType.Blob 3 [1] rfl (by decide) (by decide)

/-- C5: the type token read before the first space is matched
ASCII-case-insensitively against the four known names; every token
outside that set makes `deserialize_zlib` fail with the unknown-type
error carrying the token, and every token whose lowercase form is a
known name passes the type stage with that type — never a default. -/
theorem c5_unknown_type_rejection (zdec : List Nat → List Nat) (comp : List Nat)
    (tok rest : List Nat) (hs : zdec comp = tok ++ 32 :: rest)
    (h32 : 32 ∉ tok) (hutf : isValidUtf8 tok = true) :
    (asciiLower tok ∉ Object.knownTypeNames →
      Object.deserialize_zlib zdec comp = .err (.invalidType tok))
    ∧ (∀ t : ObjectType, asciiLower tok = Object.nameBytes t →
      Object.parseTypeStage (tok ++ 32 :: rest) = .ok (t, rest)) := by
  constructor
  · intro hns
    simp only [Object.deserialize_zlib, hs, Object.parseStream,
      parseTypeStage_eq tok rest h32 hutf, fromStrM_err tok hns]
  · intro t ht
    rw [parseTypeStage_eq tok rest h32 hutf, fromStrM_ok tok t ht]

/-- Witness for C5: the token `bloc` is rejected carrying the token,
and the uppercase token `TREE` passes the type stage as a tree. -/
theorem c5_unknown_type_rejection_witness :
    Object.deserialize_zlib id (strBytes "bloc" ++ 32 :: [])
      = .err (.invalidType (strBytes "bloc"))
    ∧ Object.parseTypeStage (strBytes "TREE" ++ 32 :: []) = .ok (ObjectType.Tree, []) :=
  ⟨(c5_unknown_type_rejection id _ (strBytes "bloc") [] rfl (by decide) (by decide)).1
      (by decide),
    (c5_unknown_type_rejection id (strBytes "TREE" ++ 32 :: []) (strBytes "TREE") [] rfl
      (by decide) (by decide)).2 ObjectType.Tree (by decide)⟩

/-- C6 counterexample: decoding the well-formed stored tree object
`tree 0` followed by a NUL does not return an error result at all: the
`todo!()` in `Object::deserialize` panics, so the outcome is a panic
with the message `not yet implemented`, and the failure is not
returned to the caller as a result. -/
theorem c6_counterexample_panics :
    (Object.deserialize_zlib id (strBytes "tree " ++ natToDecimal 0 ++ [0])).isErr = false
    ∧ Object.deserialize_zlib id (strBytes "tree " ++ natToDecimal 0 ++ [0])
        = .panic "not yet implemented" := by
  decide

/-- C6 amended: decoding a well-formed stored object whose declared
type is tree (likewise commit or tag) succeeds through header parsing
and then aborts with the explicit `todo!()` panic `not yet
implemented` — an unimplemented-structure signal distinct from every
decode error, delivered as a panic rather than as a returned
result. -/
theorem c6_amended_todo_panic (zdec : List Nat → List Nat) (comp : List Nat)
    (t : ObjectType) (data : List Nat) (ht : t ≠ ObjectType.Blob)
    (hlen : data.length < 18446744073709551616)
    (hs : zdec comp = Object.nameBytes t ++ 32 :: (natToDecimal data.length ++ 0 :: data)) :
    Object.deserialize_zlib zdec comp = .panic "not yet implemented" := by
  simp only [Object.deserialize_zlib, hs]
  rw [parseStream_wf t data.length data hlen]
  simp only [if_pos rfl]
  cases t with
  | Blob => exact absurd rfl ht
  | Commit => rfl
  | Tree => rfl
  | Tag => rfl

/-- Witness for the amended C6 at an empty tree object. -/
theorem c6_amended_todo_panic_witness :
    Object.deserialize_zlib id
        (Object.nameBytes ObjectType.Tree ++ 32 :: (natToDecimal 0 ++ 0 :: []))
      = .panic "not yet implemented" :=
  c6_amended_todo_panic id _ ObjectType.Tree [] (by decide) (by decide) rfl

/-- C7: every `write` call on the tee writer forwards the buffer to
both sinks in sequence and fails with the mismatch error exactly when
the sinks accept different counts on that call; `write_all` writes
every byte to every sink or fails. -/
theorem c7_tee_writer (a b : WSink) (buf : List Nat) :
    (∀ na nb a' b', a.write buf = .ok (na, a') → b.write buf = .ok (nb, b') →
      ((na = nb → splitWrite a b buf = .ok (na, a', b'))
        ∧ (na ≠ nb → splitWrite a b buf = .error "write did not match in size")))
    ∧ (∀ a' b', splitWriteAll a b buf = .ok (a', b') →
        a'.log = a.log ++ buf ∧ b'.log = b.log ++ buf) := by
  constructor
  · intro na nb a' b' ha hb
    constructor
    · intro he
      simp [splitWrite, ha, hb, he]
    · intro hne
      simp [splitWrite, ha, hb, hne]
  · intro a' b' h
    simp only [splitWriteAll] at h
    cases hA : a.writeAll buf with
    | error e => rw [hA] at h; simp at h
    | ok a₁ =>
      rw [hA] at h
      cases hB : b.writeAll buf with
      | error e => rw [hB] at h; simp at h
      | ok b₁ =>
        rw [hB] at h
        simp only [Except.ok.injEq, Prod.mk.injEq] at h
        exact ⟨h.1 ▸ writeAll_log a buf a₁ hA, h.2 ▸ writeAll_log b buf b₁ hB⟩

/-- Witness for C7: a sink accepting one byte per call against a full
sink makes `write` fail on a two-byte buffer, and `write_all` on two
full sinks delivers every byte to both. -/
theorem c7_tee_writer_witness :
    splitWrite ⟨[], fun _ buf => .ok (min 1 buf.length)⟩ ⟨[], fullPolicy⟩ [7, 8]
      = .error "write did not match in size"
    ∧ splitWriteAll ⟨[], fullPolicy⟩ ⟨[9], fullPolicy⟩ [5, 6]
      = .ok (⟨[5, 6], fullPolicy⟩, ⟨[9, 5, 6], fullPolicy⟩) := by
  constructor
  · exact ((c7_tee_writer ⟨[], fun _ buf => .ok (min 1 buf.length)⟩ ⟨[], fullPolicy⟩
      [7, 8]).1 1 2 _ _ rfl rfl).2 (by decide)
  · rfl

set_option maxRecDepth 100000 in
/-- C8: evaluation at the failing input.  `save` derives the path from
the digest and writes the compressed bytes, but the open options carry
no truncate flag, so an existing longer file at the object path keeps
its trailing bytes: saving the empty blob over a ten-byte file leaves
the three old trailing bytes behind, and the stored contents differ
from the compressed bytes that were written. -/
theorem c8_no_truncate_eval :
    Object.save id (Object.Blob [])
        [(Repository.sha1_to_object (sha1Hex (blobFrame [])), List.replicate 10 170)]
      = .ok (sha1Hex (blobFrame []),
          [(Repository.sha1_to_object (sha1Hex (blobFrame [])),
            blobFrame [] ++ List.replicate 3 170)])
    ∧ blobFrame [] ++ List.replicate 3 170 ≠ blobFrame [] := by
  decide

set_option maxRecDepth 100000 in
/-- C9 counterexample: with a three-byte file already present at the
empty blob's object path, a further `save` of that blob rewrites the
file: the contents before and after differ, so the store does update
an existing stored file in place. -/
theorem c9_counterexample_updates_in_place :
    fsGet [(Repository.sha1_to_object (sha1Hex (blobFrame [])), [1, 2, 3])]
        (Repository.sha1_to_object (sha1Hex (blobFrame []))) = some [1, 2, 3]
    ∧ Object.save id (Object.Blob [])
        [(Repository.sha1_to_object (sha1Hex (blobFrame [])), [1, 2, 3])]
      = .ok (sha1Hex (blobFrame []),
          [(Repository.sha1_to_object (sha1Hex (blobFrame [])), blobFrame [])])
    ∧ blobFrame [] ≠ [1, 2, 3] := by
  decide

/-- C9 amended: `save` always rewrites the file at the object's path;
when the existing contents already equal the exact serialized bytes —
the case for a correctly stored identical object — rewriting reproduces
them and the stored contents are unchanged, but in general the store
can update an existing file in place. -/
theorem c9_amended_same_bytes_stable (zenc : List Nat → List Nat) (c : List Nat)
    (fs : FS)
    (h : fsGet fs (Repository.sha1_to_object (sha1Hex (blobFrame c)))
      = some (zenc (blobFrame c))) :
    Object.save zenc (Object.Blob c) fs
      = .ok (sha1Hex (blobFrame c),
          fsSet fs (Repository.sha1_to_object (sha1Hex (blobFrame c))) (zenc (blobFrame c)))
    ∧ fsGet (fsSet fs (Repository.sha1_to_object (sha1Hex (blobFrame c)))
          (zenc (blobFrame c)))
        (Repository.sha1_to_object (sha1Hex (blobFrame c)))
      = some (zenc (blobFrame c)) := by
  constructor
  · simp only [Object.save, Object.serialize_zlib, Object.serialize_zlib_comp, swh_blob]
    simp [Repository.fileWriteCreate, h, List.drop_length]
  · exact fsGet_fsSet fs _ _

set_option maxRecDepth 100000 in
/-- Witness for the amended C9: re-saving the empty blob over its own
correctly stored file leaves the contents unchanged. -/
theorem c9_amended_same_bytes_stable_witness :
    Object.save id (Object.Blob [])
        [(Repository.sha1_to_object (sha1Hex (blobFrame [])), id (blobFrame []))]
      = .ok (sha1Hex (blobFrame []),
          fsSet [(Repository.sha1_to_object (sha1Hex (blobFrame [])), id (blobFrame []))]
            (Repository.sha1_to_object (sha1Hex (blobFrame []))) (id (blobFrame [])))
    ∧ fsGet (fsSet [(Repository.sha1_to_object (sha1Hex (blobFrame [])), id (blobFrame []))]
          (Repository.sha1_to_object (sha1Hex (blobFrame []))) (id (blobFrame [])))
        (Repository.sha1_to_object (sha1Hex (blobFrame [])))
      = some (id (blobFrame [])) :=
  c9_amended_same_bytes_stable id [] _ (by decide)

/-- C10: for every blob, `serialize_zlib`, `serialize_zlib_comp` at any
compression level, and `sha1()` return a value: the internal `unwrap`
of `serialize_with_header` is unreachable, because the SHA-1 hasher,
an in-memory zlib encoder and the empty sink all accept every byte
without failing. -/
theorem c10_blob_serialization_no_panic (zenc : List Nat → List Nat) (data : List Nat) :
    (Object.serialize_zlib_comp zenc (Object.Blob data)).isOk = true
    ∧ (Object.serialize_zlib zenc (Object.Blob data)).isOk = true
    ∧ (Object.sha1 (Object.Blob data)).isOk = true := by
  refine ⟨?_, ?_, ?_⟩ <;>
    simp [Object.serialize_zlib, Object.serialize_zlib_comp, Object.sha1, swh_blob,
      ROut.isOk]
